import Mathlib

/-!
# libPMacc plugin lifecycle (IPlugin.hpp) and preprocessor helpers (ppFunctions.hpp)

A shallow embedding of `PMacc::PluginException`, `PMacc::IPlugin` and of the
rounding helper `PMACC_ROUND_UP_NEXT_POW2`, followed by the properties
established about them.

Conventions of the embedding.

* A C++ member function that may throw is a function from the object state to
  a pair: what the caller sees (`Except PluginException Unit`: normal return or
  the exception in flight) and the object state left behind.  Writes made
  before a `throw` stay in the state, as in C++.
* `uint32_t` values are natural numbers; a value converted to `uint32_t` is
  reduced modulo `2 ^ 32`.
* A member function declared to return a value ends in a `Completion`: either
  a `return` statement was executed, or control flowed off the end of the
  body, after which the behaviour of the program is undefined and no further
  call is modelled.
* `std::string` is a list of characters (it may contain the NUL character);
  a `const char*` is the list of characters stored from the pointer onwards,
  read up to the first NUL.
-/

namespace PMacc

/-! ## Strings of the C++ standard library -/

/-- The terminating character of a C string. -/
def NUL : Char := Char.ofNat 0

/-- Contents of a `std::string`: any characters, NUL included. -/
abbrev CxxString := List Char

/-- Memory seen through a `const char*`: the characters stored from the
pointer onwards. -/
abbrev CStr := List Char

/-- The string a `const char*` denotes: the characters before the first NUL
(what `strlen`, `strcpy` and `std::string(const char*)` read). -/
def cstrContent (ptr : CStr) : CxxString :=
  ptr.takeWhile (fun c => c != NUL)

/-- The call `std::string::c_str()`: the characters of the string followed by
a terminating NUL. -/
def c_str (s : CxxString) : CStr :=
  s ++ [NUL]

/-- The class `std::runtime_error` of the C++ standard library (not part of
this repository), after the C++ standard: the object keeps a copy of the C
string it was constructed from. -/
structure runtime_error where
  /-- the stored copy of the message -/
  stored : CxxString
  deriving DecidableEq, Repr

/-- The constructor `std::runtime_error(const char* what_arg)` of the C++
standard library: copies the C string `what_arg`, that is the characters up to
its first NUL. -/
def runtime_error.ofCStr (what_arg : CStr) : runtime_error :=
  ⟨cstrContent what_arg⟩

/-- The call `std::runtime_error::what()`: a C string holding the stored
message. -/
def runtime_error.what (e : runtime_error) : CStr :=
  c_str e.stored

/-! ## PluginException -/

/-- The class `PluginException : public std::runtime_error`: it adds no
member to its base class. -/
structure PluginException where
  /-- the base class subobject -/
  toRuntimeError : runtime_error
  deriving DecidableEq, Repr

/-- The constructor `PluginException(const char* message) :
std::runtime_error(message)`. -/
def PluginException.ofCStr (message : CStr) : PluginException :=
  ⟨runtime_error.ofCStr message⟩

/-- The constructor `PluginException(std::string message) :
std::runtime_error(message.c_str())`. -/
def PluginException.ofString (message : CxxString) : PluginException :=
  ⟨runtime_error.ofCStr (c_str message)⟩

/-- The inherited call `what()`. -/
def PluginException.what (e : PluginException) : CStr :=
  e.toRuntimeError.what

/-! ## IPlugin -/

/-- Object state of a plugin: the two data members of `IPlugin` (`bool loaded`,
`uint32_t lastCheckpoint`) and the data members `derived` that a concrete
plugin class adds. -/
structure IPlugin (σ : Type) where
  loaded : Bool
  lastCheckpoint : Nat
  derived : σ
  deriving DecidableEq, Repr

/-- What a `void` member function hands to its caller together with the
object state it leaves: `.ok ()` for a normal return, `.error e` for an
exception in flight (the exception class this header defines). -/
abbrev Effect (σ : Type) := Except PluginException Unit × IPlugin σ

/-- The two overridable protected hooks of a plugin class.  A hook is a member
function of the derived class: it sees and may write the whole object state
(the members `loaded` and `lastCheckpoint` are `protected`), and it returns or
throws. -/
structure Hooks (σ : Type) where
  pluginLoad : IPlugin σ → Effect σ
  pluginUnload : IPlugin σ → Effect σ

/-- The bodies `IPlugin::pluginLoad` and `IPlugin::pluginUnload` of the base
class: both empty. -/
def defaultHooks (σ : Type) : Hooks σ where
  pluginLoad := fun p => (.ok (), p)
  pluginUnload := fun p => (.ok (), p)

/-- The constructor `IPlugin() : loaded(false), lastCheckpoint(0)`; `d` is the
initial value of the members of the derived class. -/
def IPlugin.new {σ : Type} (d : σ) : IPlugin σ :=
  { loaded := false, lastCheckpoint := 0, derived := d }

/-- The member `IPlugin::load`: `pluginLoad(); loaded = true;`.  When the hook
throws, the assignment is not reached and the exception leaves `load`. -/
def load {σ : Type} (v : Hooks σ) (p : IPlugin σ) : Effect σ :=
  match v.pluginLoad p with
  | (.ok (), p1) => (.ok (), { p1 with loaded := true })
  | (.error e, p1) => (.error e, p1)

/-- The member `IPlugin::unload`: `pluginUnload(); loaded = false;`.  When the
hook throws, the assignment is not reached and the exception leaves
`unload`. -/
def unload {σ : Type} (v : Hooks σ) (p : IPlugin σ) : Effect σ :=
  match v.pluginUnload p with
  | (.ok (), p1) => (.ok (), { p1 with loaded := false })
  | (.error e, p1) => (.error e, p1)

/-- The member `IPlugin::isLoaded`: `return loaded;`.  It is not declared
`const`, so the object state is passed through. -/
def isLoaded {σ : Type} (p : IPlugin σ) : Bool × IPlugin σ :=
  (p.loaded, p)

/-- The member `IPlugin::getLastCheckpoint`: `return lastCheckpoint;`. -/
def getLastCheckpoint {σ : Type} (p : IPlugin σ) : Nat × IPlugin σ :=
  (p.lastCheckpoint, p)

/-- How a call of a member function declared to return a value of type `α`
ends. -/
inductive Completion (α σ : Type) where
  /-- A `return` statement was executed: the value returned and the object
  state left. -/
  | returned (value : α) (state : IPlugin σ)
  /-- Control reached the closing brace of the body without a `return`
  statement.  For a function declared to return a value this is undefined
  behaviour: the call hands nothing back to its caller and what the program
  does from there on is not defined.  `state` is the object state the body had
  reached at that point. -/
  | flowsOffEnd (state : IPlugin σ)

/-- The member `IPlugin::setLastCheckpoint`, declared
`uint32_t setLastCheckpoint( uint32_t currentStep )` with the body
`lastCheckpoint = currentStep;` and nothing else: `currentStep` is converted to
`uint32_t` at the call, the assignment is executed, and control then flows off
the end of a function declared to return `uint32_t`. -/
def setLastCheckpoint {σ : Type} (p : IPlugin σ) (currentStep : Nat) : Completion Nat σ :=
  .flowsOffEnd { p with lastCheckpoint := currentStep % 2 ^ 32 }

/-- A hook that leaves the member `loaded` as it found it. -/
def KeepsLoaded {σ : Type} (hook : IPlugin σ → Effect σ) : Prop :=
  ∀ p, (hook p).2.loaded = p.loaded

/-! ## Sequences of calls made by a plugin manager -/

/-- One call of a public member function of `IPlugin` on a component, among
those whose behaviour is defined.  `setLastCheckpoint` is not one of them:
every call of it flows off the end of the function (see `setLastCheckpoint`),
so a sequence of calls has no defined continuation after it. -/
inductive Call where
  | load
  | unload
  | isLoaded
  | getLastCheckpoint
  deriving DecidableEq, Repr

/-- Effect of one call on the component: what the caller sees (the value a
query returns is dropped) and the state left.  An exception leaving `load` or
`unload` is caught by the caller, which goes on with the component as the
call left it. -/
def callStep {σ : Type} (v : Hooks σ) (p : IPlugin σ) : Call → Effect σ
  | .load => load v p
  | .unload => unload v p
  | .isLoaded => (.ok (), (isLoaded p).2)
  | .getLastCheckpoint => (.ok (), (getLastCheckpoint p).2)

/-- A call that has been made, with how it ended: `returned` is `true` when it
returned normally and `false` when an exception left it.  For `load` and
`unload` this is how their hook ended (see `load_returns_iff`,
`unload_returns_iff`). -/
structure Event where
  call : Call
  returned : Bool
  deriving DecidableEq, Repr

/-- Runs the calls in order from state `p`; gives the events in the order they
happened and the final state. -/
def run {σ : Type} (v : Hooks σ) (p : IPlugin σ) (calls : List Call) :
    List Event × IPlugin σ :=
  calls.foldl
    (fun acc c => (acc.1 ++ [⟨c, (callStep v acc.2 c).1.isOk⟩], (callStep v acc.2 c).2))
    ([], p)

/-- A `load()` whose hook succeeded. -/
def goodLoad : Event := ⟨.load, true⟩

/-- An `unload()` whose hook succeeded. -/
def goodUnload : Event := ⟨.unload, true⟩

/-- The condition as the specification words it: the sequence contains a
`load()` whose hook succeeded, and no `unload()` was called after the last
such `load()`. -/
def LoadedBySpec (t : List Event) : Prop :=
  ∃ pre post, t = pre ++ goodLoad :: post ∧ goodLoad ∉ post ∧
    ∀ ev ∈ post, ev.call ≠ Call.unload

/-- The condition the code realises: the sequence contains a `load()` whose
hook succeeded, and no `unload()` whose hook returned normally was called
after the last such `load()`. -/
def LoadedByCode (t : List Event) : Prop :=
  ∃ pre post, t = pre ++ goodLoad :: post ∧ goodLoad ∉ post ∧ goodUnload ∉ post

/-! ## Concrete plugin classes used as test inputs -/

/-- The exception thrown by the test plugins below: `PluginException("fail")`. -/
def failure : PluginException :=
  PluginException.ofCStr ['f', 'a', 'i', 'l', NUL]

/-- A plugin class whose `pluginLoad` is `loaded = true; throw
PluginException("fail");` and whose `pluginUnload` is the empty default. -/
def eagerHooks : Hooks Unit where
  pluginLoad := fun p => (.error failure, { p with loaded := true })
  pluginUnload := fun p => (.ok (), p)

/-- A plugin class whose `pluginLoad` is the empty default and whose
`pluginUnload` is `throw PluginException("fail");`. -/
def stuckHooks : Hooks Unit where
  pluginLoad := fun p => (.ok (), p)
  pluginUnload := fun p => (.error failure, p)

/-- A plugin class whose `pluginLoad` is `throw PluginException("fail");` and
whose `pluginUnload` is the empty default. -/
def refusingHooks : Hooks Unit where
  pluginLoad := fun p => (.error failure, p)
  pluginUnload := fun p => (.ok (), p)

/-! ## ppFunctions.hpp -/

/-- The expression `PMACC_ROUND_UP_NEXT_POW2(value)`: a chain of conditional
expressions, `value == 1 ? 1 : value <= 2 ? 2 : ... : value <= 64 ? 64 : 128`. -/
def PMACC_ROUND_UP_NEXT_POW2 (value : Int) : Int :=
  if value = 1 then 1 else
  if value ≤ 2 then 2 else
  if value ≤ 4 then 4 else
  if value ≤ 8 then 8 else
  if value ≤ 16 then 16 else
  if value ≤ 32 then 32 else
  if value ≤ 64 then 64 else 128

/-- An integer that is a power of two. -/
def IsPow2 (n : Int) : Prop :=
  ∃ k : Nat, n = 2 ^ k

/-- The rule of C++ for `sizeof` applied to an array: the number of elements
times `sizeof` of the element type; `sizeofType` is that implementation-defined
size. -/
def sizeofArray {α : Type} (sizeofType : Nat) (arr : List α) : Nat :=
  arr.length * sizeofType

/-- The expression `PMACC_COUNT_ARGS(type, args...)`:
`sizeof((type[]){type{}, args...}) / sizeof(type) - 1u`.  The array holds the
value-initialised element `type{}` followed by the arguments; the subtraction
of `1u` is unsigned arithmetic in the width `w` of `size_t`, that is modulo
`2 ^ w`. -/
def PMACC_COUNT_ARGS {α : Type} [Inhabited α] (w sizeofType : Nat) (args : List α) : Nat :=
  (sizeofArray sizeofType ((default : α) :: args) / sizeofType + 2 ^ w - 1) % 2 ^ w

/-- The expression `PMACC_HAS_ARGS(args...)`:
`sizeof((int[]){0, args...}) == sizeof(int) ? false : true`; the arguments are
taken after their conversion to `int`. -/
def PMACC_HAS_ARGS (sizeofInt : Nat) (args : List Int) : Bool :=
  if sizeofArray sizeofInt ((0 : Int) :: args) = sizeofInt then false else true

/-! ## Instrumented plugin classes -/

/-- A plugin class with one extra member, the list of values its hooks have
seen.  `pluginLoad` is `seen.push_back(isLoaded()); loaded = false;` and
`pluginUnload` is `seen.push_back(isLoaded()); loaded = true;`: each hook
records what `isLoaded()` returns and then writes the opposite of what its
wrapper writes. -/
def probeHooks : Hooks (List Bool) where
  pluginLoad := fun p =>
    (.ok (), { (isLoaded p).2 with derived := p.derived ++ [(isLoaded p).1], loaded := false })
  pluginUnload := fun p =>
    (.ok (), { (isLoaded p).2 with derived := p.derived ++ [(isLoaded p).1], loaded := true })

/-- Invocation counters added to a plugin class. -/
structure Counters where
  loads : Nat
  unloads : Nat
  deriving DecidableEq, Repr

/-- The state of the underlying plugin inside an instrumented one. -/
def inner {σ : Type} (p : IPlugin (σ × Counters)) : IPlugin σ :=
  { loaded := p.loaded, lastCheckpoint := p.lastCheckpoint, derived := p.derived.1 }

/-- The plugin class `v` with each hook instrumented: the hook first counts
its invocation (`++loads;` or `++unloads;`) and then runs the body it has in
`v`. -/
def counted {σ : Type} (v : Hooks σ) : Hooks (σ × Counters) where
  pluginLoad := fun p =>
    ((v.pluginLoad (inner p)).1,
      { loaded := (v.pluginLoad (inner p)).2.loaded,
        lastCheckpoint := (v.pluginLoad (inner p)).2.lastCheckpoint,
        derived := ((v.pluginLoad (inner p)).2.derived,
          { loads := p.derived.2.loads + 1, unloads := p.derived.2.unloads }) })
  pluginUnload := fun p =>
    ((v.pluginUnload (inner p)).1,
      { loaded := (v.pluginUnload (inner p)).2.loaded,
        lastCheckpoint := (v.pluginUnload (inner p)).2.lastCheckpoint,
        derived := ((v.pluginUnload (inner p)).2.derived,
          { loads := p.derived.2.loads, unloads := p.derived.2.unloads + 1 }) })

/-! ## Observations made by a plugin manager -/

/-- The manager calls `setLastCheckpoint(s)` for each step of the list, in
order; a call is made only after the previous one has returned.  The result
is how the sequence ends: all calls returned, or the first call that flowed
off the end of the function. -/
def setLastCheckpoints {σ : Type} (p : IPlugin σ) : List Nat → Completion Unit σ
  | [] => .returned () p
  | s :: rest =>
    match setLastCheckpoint p s with
    | .returned _ q => setLastCheckpoints q rest
    | .flowsOffEnd q => .flowsOffEnd q

/-- The successive values of `getLastCheckpoint()` a manager reads: one before
any call and one after each `setLastCheckpoint(s)` of the sequence `steps`
that has returned; nothing is read after a call that did not return. -/
def checkpointHistory {σ : Type} (p : IPlugin σ) : List Nat → List Nat
  | [] => [(getLastCheckpoint p).1]
  | s :: rest =>
    (getLastCheckpoint p).1 ::
      match setLastCheckpoint (getLastCheckpoint p).2 s with
      | .returned _ q => checkpointHistory q rest
      | .flowsOffEnd _ => []

/-! ## Properties of load, unload and the status queries -/

/-- `load()` returns normally exactly when its hook does. -/
lemma load_returns_iff {σ : Type} (v : Hooks σ) (p : IPlugin σ) :
    (load v p).1.isOk = (v.pluginLoad p).1.isOk := by
  unfold load
  rcases h : v.pluginLoad p with ⟨_ | _, p1⟩ <;> rfl

/-- `unload()` returns normally exactly when its hook does. -/
lemma unload_returns_iff {σ : Type} (v : Hooks σ) (p : IPlugin σ) :
    (unload v p).1.isOk = (v.pluginUnload p).1.isOk := by
  unfold unload
  rcases h : v.pluginUnload p with ⟨_ | _, p1⟩ <;> rfl

/-- The two ways `load()` can end, after its hook. -/
lemma load_cases {σ : Type} (v : Hooks σ) (p : IPlugin σ) :
    (∃ p1, v.pluginLoad p = (.ok (), p1) ∧ load v p = (.ok (), { p1 with loaded := true })) ∨
    (∃ e p1, v.pluginLoad p = (.error e, p1) ∧ load v p = (.error e, p1)) := by
  unfold load
  rcases h : v.pluginLoad p with ⟨e | _, p1⟩
  · exact Or.inr ⟨e, p1, rfl, rfl⟩
  · exact Or.inl ⟨p1, rfl, rfl⟩

/-- The two ways `unload()` can end, after its hook. -/
lemma unload_cases {σ : Type} (v : Hooks σ) (p : IPlugin σ) :
    (∃ p1, v.pluginUnload p = (.ok (), p1) ∧ unload v p = (.ok (), { p1 with loaded := false })) ∨
    (∃ e p1, v.pluginUnload p = (.error e, p1) ∧ unload v p = (.error e, p1)) := by
  unfold unload
  rcases h : v.pluginUnload p with ⟨e | _, p1⟩
  · exact Or.inr ⟨e, p1, rfl, rfl⟩
  · exact Or.inl ⟨p1, rfl, rfl⟩

/-- C1. For every component state and every `pluginLoad` hook that returns
normally on it, `load()` returns normally and `isLoaded()` is true
afterwards. -/
theorem load_ok_isLoaded {σ : Type} (v : Hooks σ) (p : IPlugin σ)
    (h : (v.pluginLoad p).1 = .ok ()) :
    (load v p).1 = .ok () ∧ (isLoaded (load v p).2).1 = true := by
  unfold load isLoaded
  rcases hk : v.pluginLoad p with ⟨_ | _, p1⟩
  · rw [hk] at h; cases h
  · exact ⟨rfl, rfl⟩

/-- Witness for C1: the default hooks on a loaded component with a recorded
checkpoint. -/
theorem load_ok_isLoaded_witness :
    ((defaultHooks Unit).pluginLoad ⟨true, 7, ()⟩).1 = .ok () ∧
    (load (defaultHooks Unit) ⟨true, 7, ()⟩).1 = .ok () ∧
    (isLoaded (load (defaultHooks Unit) ⟨true, 7, ()⟩).2).1 = true :=
  ⟨rfl, load_ok_isLoaded (defaultHooks Unit) ⟨true, 7, ()⟩ rfl⟩

/-- C2, as stated, fails: on a fresh (unloaded) component of the class
`eagerHooks`, whose `pluginLoad` sets `loaded` and then throws, the hook
raises `failure` and `isLoaded()` is true after the failed `load()`, so it is
not the case that `load()` fails with `failure` and `isLoaded()` is false
afterwards. -/
theorem load_raise_counterexample :
    (isLoaded (IPlugin.new ())).1 = false ∧
    (eagerHooks.pluginLoad (IPlugin.new ())).1 = .error failure ∧
    (isLoaded (load eagerHooks (IPlugin.new ())).2).1 = true ∧
    ¬ ((load eagerHooks (IPlugin.new ())).1 = .error failure ∧
        (isLoaded (load eagerHooks (IPlugin.new ())).2).1 = false) := by
  refine ⟨rfl, rfl, rfl, ?_⟩
  rintro ⟨-, h⟩
  exact absurd h (by decide)

/-- C2, amended. For every unloaded component whose `pluginLoad` hook raises
a `PluginException` `e` and leaves the member `loaded` as it found it,
`load()` fails with exactly `e`, `isLoaded()` is still false afterwards, and
`load()` itself has written nothing: the state is the one the hook left. -/
theorem load_raise_propagates {σ : Type} (v : Hooks σ) (p : IPlugin σ)
    (e : PluginException) (hp : p.loaded = false)
    (h : (v.pluginLoad p).1 = .error e)
    (hk : (v.pluginLoad p).2.loaded = p.loaded) :
    (load v p).1 = .error e ∧ (isLoaded (load v p).2).1 = false ∧
      (load v p).2 = (v.pluginLoad p).2 := by
  unfold load isLoaded
  rcases hq : v.pluginLoad p with ⟨e1 | _, p1⟩
  · rw [hq] at h hk
    simp only at h hk
    exact ⟨h, hk.trans hp, rfl⟩
  · rw [hq] at h; cases h

/-- Witness for C2 amended: a fresh component of the class `refusingHooks`. -/
theorem load_raise_propagates_witness :
    (load refusingHooks (IPlugin.new ())).1 = .error failure ∧
    (isLoaded (load refusingHooks (IPlugin.new ())).2).1 = false ∧
    (load refusingHooks (IPlugin.new ())).2 =
      (refusingHooks.pluginLoad (IPlugin.new ())).2 :=
  load_raise_propagates refusingHooks (IPlugin.new ()) failure rfl rfl rfl

/-- C3, as stated, fails: on a loaded component of the class `stuckHooks`,
whose `pluginUnload` throws, `unload()` lets the exception through and
`isLoaded()` is still true afterwards. -/
theorem unload_raise_counterexample :
    (isLoaded (⟨true, 0, ()⟩ : IPlugin Unit)).1 = true ∧
    (unload stuckHooks ⟨true, 0, ()⟩).1 = .error failure ∧
    ¬ (isLoaded (unload stuckHooks ⟨true, 0, ()⟩).2).1 = false := by
  refine ⟨rfl, rfl, ?_⟩
  decide

/-- C3, amended. For every loaded component: when the `pluginUnload` hook
returns normally, `unload()` returns normally and `isLoaded()` is false
afterwards; when the hook raises `e`, `unload()` fails with `e` and writes
nothing (the state is the one the hook left), so `isLoaded()` is still true
if the hook left the member `loaded` as it found it. -/
theorem unload_effect {σ : Type} (v : Hooks σ) (p : IPlugin σ)
    (hp : p.loaded = true) :
    ((v.pluginUnload p).1 = .ok () →
      (unload v p).1 = .ok () ∧ (isLoaded (unload v p).2).1 = false) ∧
    (∀ e, (v.pluginUnload p).1 = .error e →
      (unload v p).1 = .error e ∧ (unload v p).2 = (v.pluginUnload p).2 ∧
      ((v.pluginUnload p).2.loaded = p.loaded →
        (isLoaded (unload v p).2).1 = true)) := by
  unfold unload isLoaded
  rcases hq : v.pluginUnload p with ⟨e1 | _, p1⟩
  · refine ⟨fun h => ?_, fun e h => ?_⟩
    · cases h
    · simp only at h
      exact ⟨h, rfl, fun hk => hk.trans hp⟩
  · refine ⟨fun _ => ⟨rfl, rfl⟩, fun e h => ?_⟩
    cases h

/-- Witness for C3 amended: the default hooks (normal return) and the class
`stuckHooks` (throwing `pluginUnload`) on a loaded component. -/
theorem unload_effect_witness :
    ((unload (defaultHooks Unit) ⟨true, 0, ()⟩).1 = .ok () ∧
      (isLoaded (unload (defaultHooks Unit) ⟨true, 0, ()⟩).2).1 = false) ∧
    ((unload stuckHooks ⟨true, 0, ()⟩).1 = .error failure ∧
      (isLoaded (unload stuckHooks ⟨true, 0, ()⟩).2).1 = true) :=
  ⟨(unload_effect (defaultHooks Unit) ⟨true, 0, ()⟩ rfl).1 rfl,
   ((unload_effect stuckHooks ⟨true, 0, ()⟩ rfl).2 failure rfl).1,
   ((unload_effect stuckHooks ⟨true, 0, ()⟩ rfl).2 failure rfl).2.2 rfl⟩

/-- C4. Every freshly constructed component has `isLoaded() == false` and
`getLastCheckpoint() == 0`. -/
theorem fresh_component {σ : Type} (d : σ) :
    (isLoaded (IPlugin.new d)).1 = false ∧
    (getLastCheckpoint (IPlugin.new d)).1 = 0 :=
  ⟨rfl, rfl⟩

/-! ## Checkpoint bookkeeping -/

/-- No call of `setLastCheckpoint` executes a `return` statement. -/
lemma setLastCheckpoint_ne_returned {σ : Type} (p : IPlugin σ) (s value : Nat)
    (q : IPlugin σ) : setLastCheckpoint p s ≠ .returned value q := by
  intro h
  exact Completion.noConfusion h

/-- C5, the code at the failing input. On a freshly constructed component the
call `setLastCheckpoint(100)` executes the assignment and then flows off the
end of the function declared `uint32_t`: it does not return, so there is no
`getLastCheckpoint()` after it that could return 100.  The same happens from
every state and for every step. -/
theorem setLastCheckpoint_flows_off_end :
    setLastCheckpoint (IPlugin.new ()) 100 = .flowsOffEnd ⟨false, 100, ()⟩ ∧
    (∀ (value : Nat) (q : IPlugin Unit),
      setLastCheckpoint (IPlugin.new ()) 100 ≠ .returned value q) ∧
    (∀ (p : IPlugin Unit) (s : Nat),
      setLastCheckpoint p s = .flowsOffEnd { p with lastCheckpoint := s % 2 ^ 32 }) :=
  ⟨rfl, fun value q => setLastCheckpoint_ne_returned _ _ value q, fun _ _ => rfl⟩

/-- C6, the code at the failing input. On a freshly constructed component the
calls `setLastCheckpoint(100)`, `setLastCheckpoint(200)` end at the first one,
which flows off the end of the function: the second call is never reached
with defined behaviour.  The same happens for every non-empty sequence from
every state. -/
theorem setLastCheckpoints_ends_at_first :
    setLastCheckpoints (IPlugin.new ()) [100, 200] = .flowsOffEnd ⟨false, 100, ()⟩ ∧
    (∀ (p : IPlugin Unit) (s : Nat) (rest : List Nat),
      setLastCheckpoints p (s :: rest) =
        .flowsOffEnd { p with lastCheckpoint := s % 2 ^ 32 }) :=
  ⟨rfl, fun _ _ _ => rfl⟩

/-! ## The two-state machine -/

/-- Running one more call appends its event and applies its effect. -/
lemma run_snoc {σ : Type} (v : Hooks σ) (p : IPlugin σ) (calls : List Call) (c : Call) :
    run v p (calls ++ [c]) =
      ((run v p calls).1 ++ [⟨c, (callStep v (run v p calls).2 c).1.isOk⟩],
        (callStep v (run v p calls).2 c).2) := by
  simp [run, List.foldl_append]

/-- How one call moves the member `loaded`, when the hooks leave it alone:
a `load()` that returns sets it, an `unload()` that returns clears it, every
other call (and every call that throws) keeps it. -/
lemma callStep_loaded {σ : Type} (v : Hooks σ)
    (hl : KeepsLoaded v.pluginLoad) (hu : KeepsLoaded v.pluginUnload)
    (q : IPlugin σ) (c : Call) :
    (callStep v q c).2.loaded =
      if (⟨c, (callStep v q c).1.isOk⟩ : Event) = goodLoad then true
      else if (⟨c, (callStep v q c).1.isOk⟩ : Event) = goodUnload then false
      else q.loaded := by
  cases c with
  | load =>
    have hk := hl q
    show (load v q).2.loaded = if (⟨.load, (load v q).1.isOk⟩ : Event) = goodLoad then true
      else if (⟨.load, (load v q).1.isOk⟩ : Event) = goodUnload then false else q.loaded
    rcases load_cases v q with ⟨p1, -, h⟩ | ⟨e, p1, hq, h⟩
    · rw [h]
      simp [goodLoad, Except.isOk, Except.toBool]
    · rw [hq] at hk
      rw [h]
      simpa [goodLoad, goodUnload, Except.isOk, Except.toBool] using hk
  | unload =>
    have hk := hu q
    show (unload v q).2.loaded = if (⟨.unload, (unload v q).1.isOk⟩ : Event) = goodLoad then true
      else if (⟨.unload, (unload v q).1.isOk⟩ : Event) = goodUnload then false else q.loaded
    rcases unload_cases v q with ⟨p1, -, h⟩ | ⟨e, p1, hq, h⟩
    · rw [h]
      simp [goodLoad, goodUnload, Except.isOk, Except.toBool]
    · rw [hq] at hk
      rw [h]
      simpa [goodLoad, goodUnload, Except.isOk, Except.toBool] using hk
  | isLoaded =>
    simp [callStep, isLoaded, goodLoad, goodUnload]
  | getLastCheckpoint =>
    simp [callStep, getLastCheckpoint, goodLoad, goodUnload]

/-- No event sequence that is empty satisfies the condition. -/
lemma not_loadedByCode_nil : ¬ LoadedByCode [] := by
  rintro ⟨pre, post, h, -, -⟩
  simp at h

/-- A sequence ending in a successful `load()` satisfies the condition. -/
lemma loadedByCode_snoc_goodLoad (t : List Event) : LoadedByCode (t ++ [goodLoad]) :=
  ⟨t, [], rfl, by simp, by simp⟩

/-- Appending an event other than a successful `load()` keeps the condition
exactly when the event is not a successful `unload()`. -/
lemma loadedByCode_snoc (t : List Event) (ev : Event) (hev : ev ≠ goodLoad) :
    LoadedByCode (t ++ [ev]) ↔ LoadedByCode t ∧ ev ≠ goodUnload := by
  constructor
  · rintro ⟨pre, post, h, hgl, hgu⟩
    rcases List.eq_nil_or_concat post with rfl | ⟨front, last, rfl⟩
    · have h2 : t ++ [ev] = pre ++ [goodLoad] := h
      have := List.append_inj_right' h2 rfl
      simp at this
      exact absurd this hev
    · have h2 : t ++ [ev] = (pre ++ goodLoad :: front) ++ [last] := by
        rw [h]; simp
      have e1 := List.append_inj_left' h2 rfl
      have e2 := List.append_inj_right' h2 rfl
      simp only [List.cons.injEq, and_true] at e2
      subst e2
      refine ⟨⟨pre, front, e1, ?_, ?_⟩, ?_⟩
      · intro hm; exact hgl (by simp [hm])
      · intro hm; exact hgu (by simp [hm])
      · intro he; exact hgu (by simp [he])
  · rintro ⟨⟨pre, post, h, hgl, hgu⟩, hne⟩
    refine ⟨pre, post ++ [ev], by rw [h]; simp, ?_, ?_⟩
    · simp only [List.mem_append, List.mem_singleton, not_or]
      exact ⟨hgl, fun he => hev he.symm⟩
    · simp only [List.mem_append, List.mem_singleton, not_or]
      exact ⟨hgu, fun he => hne he.symm⟩

/-- The invariant from any start state that is not loaded. -/
lemma loaded_iff_loadedByCode {σ : Type} (v : Hooks σ)
    (hl : KeepsLoaded v.pluginLoad) (hu : KeepsLoaded v.pluginUnload)
    (p : IPlugin σ) (hp : p.loaded = false) (calls : List Call) :
    (run v p calls).2.loaded = true ↔ LoadedByCode (run v p calls).1 := by
  induction calls using List.reverseRecOn with
  | nil =>
    simp only [run, List.foldl_nil, hp]
    exact ⟨fun h => Bool.noConfusion h, fun h => absurd h not_loadedByCode_nil⟩
  | append_singleton cs c ih =>
    rw [run_snoc]
    simp only
    rw [callStep_loaded v hl hu]
    by_cases h1 : (⟨c, (callStep v (run v p cs).2 c).1.isOk⟩ : Event) = goodLoad
    · rw [if_pos h1, h1]
      exact ⟨fun _ => loadedByCode_snoc_goodLoad _, fun _ => rfl⟩
    · rw [if_neg h1, loadedByCode_snoc _ _ h1]
      by_cases h2 : (⟨c, (callStep v (run v p cs).2 c).1.isOk⟩ : Event) = goodUnload
      · rw [if_pos h2]
        exact ⟨fun h => Bool.noConfusion h, fun h => absurd h2 h.2⟩
      · rw [if_neg h2, ih]
        exact ⟨fun h => ⟨h, h2⟩, fun h => h.1⟩

/-- C7, as stated, fails: the hooks of the class `stuckHooks` do not write
`loaded`; after `load(); unload()` on a fresh component, where the unload
hook throws, `isLoaded()` is true although an `unload()` was called after
the last successful `load()`. -/
theorem loaded_invariant_counterexample :
    KeepsLoaded stuckHooks.pluginLoad ∧ KeepsLoaded stuckHooks.pluginUnload ∧
    (isLoaded (run stuckHooks (IPlugin.new ()) [.load, .unload]).2).1 = true ∧
    ¬ LoadedBySpec (run stuckHooks (IPlugin.new ()) [.load, .unload]).1 := by
  refine ⟨fun _ => rfl, fun _ => rfl, rfl, ?_⟩
  have ht : (run stuckHooks (IPlugin.new ()) [.load, .unload]).1 =
      [goodLoad, ⟨.unload, false⟩] := rfl
  rw [ht]
  rintro ⟨pre, post, h, -, hu⟩
  rcases pre with _ | ⟨a, pre⟩
  · simp only [List.nil_append, List.cons.injEq, true_and] at h
    exact hu ⟨.unload, false⟩ (by simp [← h]) rfl
  · rcases pre with _ | ⟨b, pre⟩
    · simp [goodLoad] at h
    · simp at h

/-- C7, amended. For every finite sequence of `load()`, `unload()`,
`isLoaded()` and `getLastCheckpoint()` calls applied to a freshly constructed
component whose hooks do not write the member `loaded`, `isLoaded()` is true
at the end if and only if the sequence contains a `load()` whose hook
succeeded and no `unload()` whose hook returned normally was called after the
last such `load()`.  The calls `isLoaded()` and `getLastCheckpoint()` never
change `loaded`.  Sequences containing `setLastCheckpoint(s)` are left out:
the behaviour of that call is undefined. -/
theorem loaded_invariant {σ : Type} (v : Hooks σ)
    (hl : KeepsLoaded v.pluginLoad) (hu : KeepsLoaded v.pluginUnload) (d : σ) :
    (∀ calls : List Call,
      (isLoaded (run v (IPlugin.new d) calls).2).1 = true ↔
        LoadedByCode (run v (IPlugin.new d) calls).1) ∧
    (∀ (q : IPlugin σ) (c : Call), c ≠ .load → c ≠ .unload →
      (callStep v q c).2.loaded = q.loaded) := by
  refine ⟨fun calls => loaded_iff_loadedByCode v hl hu (IPlugin.new d) rfl calls, ?_⟩
  intro q c h1 h2
  cases c with
  | load => exact absurd rfl h1
  | unload => exact absurd rfl h2
  | isLoaded => rfl
  | getLastCheckpoint => rfl

/-- Witness for C7 amended: the class `stuckHooks` and the calls `load()`,
`unload()` (which throws), `getLastCheckpoint()`, `isLoaded()`. -/
theorem loaded_invariant_witness :
    (isLoaded (run stuckHooks (IPlugin.new ())
        [.load, .unload, .getLastCheckpoint, .isLoaded]).2).1 = true ↔
      LoadedByCode (run stuckHooks (IPlugin.new ())
        [.load, .unload, .getLastCheckpoint, .isLoaded]).1 :=
  (loaded_invariant stuckHooks (fun _ => rfl) (fun _ => rfl) ()).1
    [.load, .unload, .getLastCheckpoint, .isLoaded]

/-! ## The message of a PluginException -/

/-- The string read from a C string holds no NUL. -/
lemma nul_not_mem_cstrContent (ptr : CStr) : NUL ∉ cstrContent ptr := by
  intro h
  have := List.mem_takeWhile_imp h
  simp at this

/-- Reading the C string made from `s ++ NUL :: rest` gives `s`, when `s`
holds no NUL. -/
lemma cstrContent_append_nul (s rest : List Char) (hs : NUL ∉ s) :
    cstrContent (s ++ NUL :: rest) = s := by
  induction s with
  | nil => simp [cstrContent, List.takeWhile]
  | cons a s ih =>
    have ha : a ≠ NUL := fun h => hs (by simp [h])
    have hs2 : NUL ∉ s := fun h => hs (by simp [h])
    have := ih hs2
    have hb : (a != NUL) = true := by simpa using ha
    simp only [cstrContent] at this ⊢
    rw [List.cons_append, List.takeWhile_cons, hb, if_pos rfl, this]

/-- What `what()` gives back after construction from a C string: the string
that C string denotes. -/
lemma what_ofCStr (ptr : CStr) :
    cstrContent (PluginException.ofCStr ptr).what = cstrContent ptr := by
  show cstrContent (cstrContent ptr ++ [NUL]) = cstrContent ptr
  exact cstrContent_append_nul _ [] (nul_not_mem_cstrContent ptr)

/-- The C string of `m` denotes the part of `m` before its first NUL. -/
lemma cstrContent_c_str (m : CxxString) :
    cstrContent (c_str m) = m.takeWhile (fun c => c != NUL) := by
  induction m with
  | nil => simp [cstrContent, c_str, List.takeWhile]
  | cons a m ih =>
    simp only [cstrContent, c_str] at ih ⊢
    rw [List.cons_append, List.takeWhile_cons, List.takeWhile_cons, ih]

/-- C8, as stated, fails: for the `std::string` holding `a`, NUL, `b`, the
exception built by the `std::string` constructor carries the message `a`
only. -/
theorem what_embedded_nul_counterexample :
    cstrContent (PluginException.ofString ['a', NUL, 'b']).what = ['a'] ∧
    cstrContent (PluginException.ofString ['a', NUL, 'b']).what ≠ ['a', NUL, 'b'] := by
  have h : cstrContent (PluginException.ofString ['a', NUL, 'b']).what = ['a'] := by
    rw [show PluginException.ofString ['a', NUL, 'b'] =
      PluginException.ofCStr (c_str ['a', NUL, 'b']) from rfl, what_ofCStr, cstrContent_c_str]
    decide
  refine ⟨h, ?_⟩
  rw [h]
  simp

/-- C8, amended. For every message string `m` that holds no NUL character, a
`PluginException` constructed from `m` carries exactly `m` as its message,
for both constructors (the one taking a C string, given the C string of `m`,
and the one taking a `std::string`); for every `std::string` `m` the message
carried is the part of `m` before its first NUL. -/
theorem what_roundtrip :
    (∀ m : CxxString, NUL ∉ m →
      cstrContent (PluginException.ofCStr (c_str m)).what = m ∧
      cstrContent (PluginException.ofString m).what = m) ∧
    (∀ m : CxxString,
      cstrContent (PluginException.ofString m).what = m.takeWhile (fun c => c != NUL)) := by
  have key : ∀ m : CxxString,
      cstrContent (PluginException.ofString m).what = m.takeWhile (fun c => c != NUL) := by
    intro m
    rw [show PluginException.ofString m = PluginException.ofCStr (c_str m) from rfl,
      what_ofCStr, cstrContent_c_str]
  refine ⟨fun m hm => ?_, key⟩
  have hm2 : m.takeWhile (fun c => c != NUL) = m := by
    rw [List.takeWhile_eq_self_iff]
    intro c hc
    have : c ≠ NUL := fun h => hm (h ▸ hc)
    simpa using this
  exact ⟨(key m).trans hm2, (key m).trans hm2⟩

/-- Witness for C8 amended: the message `fail`. -/
theorem what_roundtrip_witness :
    cstrContent (PluginException.ofCStr (c_str ['f', 'a', 'i', 'l'])).what = ['f', 'a', 'i', 'l'] ∧
    cstrContent (PluginException.ofString ['f', 'a', 'i', 'l']).what = ['f', 'a', 'i', 'l'] :=
  what_roundtrip.1 ['f', 'a', 'i', 'l'] (by decide)

/-! ## PMACC_ROUND_UP_NEXT_POW2 -/

/-- A power of two is one of 1, 2, 4, ..., 64 or is at least 128. -/
lemma pow2_cases (k : Nat) :
    (2 : Int) ^ k = 1 ∨ (2 : Int) ^ k = 2 ∨ (2 : Int) ^ k = 4 ∨ (2 : Int) ^ k = 8 ∨
    (2 : Int) ^ k = 16 ∨ (2 : Int) ^ k = 32 ∨ (2 : Int) ^ k = 64 ∨ 128 ≤ (2 : Int) ^ k := by
  rcases Nat.lt_or_ge k 7 with h | h
  · interval_cases k <;> norm_num
  · have : (2 : Int) ^ 7 ≤ 2 ^ k := pow_le_pow_right₀ (by norm_num) h
    norm_num at this
    omega

/-- The results of the rounding helper are powers of two. -/
lemma round_up_isPow2 (value : Int) : IsPow2 (PMACC_ROUND_UP_NEXT_POW2 value) := by
  unfold PMACC_ROUND_UP_NEXT_POW2
  split_ifs
  · exact ⟨0, by norm_num⟩
  · exact ⟨1, by norm_num⟩
  · exact ⟨2, by norm_num⟩
  · exact ⟨3, by norm_num⟩
  · exact ⟨4, by norm_num⟩
  · exact ⟨5, by norm_num⟩
  · exact ⟨6, by norm_num⟩
  · exact ⟨7, by norm_num⟩

/-- C9. For every integer `value` with `1 <= value <= 128`,
`PMACC_ROUND_UP_NEXT_POW2(value)` is the smallest power of two that is
greater than or equal to `value`: it is at least `value`, it is a power of
two, and every power of two that is at least `value` is at least it. -/
theorem round_up_least_pow2 (value : Int) (h1 : 1 ≤ value) (h2 : value ≤ 128) :
    value ≤ PMACC_ROUND_UP_NEXT_POW2 value ∧
    IsPow2 (PMACC_ROUND_UP_NEXT_POW2 value) ∧
    ∀ n : Int, IsPow2 n → value ≤ n → PMACC_ROUND_UP_NEXT_POW2 value ≤ n := by
  refine ⟨?_, round_up_isPow2 value, ?_⟩
  · unfold PMACC_ROUND_UP_NEXT_POW2
    split_ifs <;> omega
  · rintro n ⟨k, rfl⟩ hn
    have hk := pow2_cases k
    unfold PMACC_ROUND_UP_NEXT_POW2
    split_ifs <;> omega

/-- Witness for C9: the value 37 is rounded up to 64. -/
theorem round_up_least_pow2_witness :
    (37 : Int) ≤ PMACC_ROUND_UP_NEXT_POW2 37 ∧
    IsPow2 (PMACC_ROUND_UP_NEXT_POW2 37) ∧
    ∀ n : Int, IsPow2 n → 37 ≤ n → PMACC_ROUND_UP_NEXT_POW2 37 ≤ n :=
  round_up_least_pow2 37 (by norm_num) (by norm_num)

/-- C10, as stated, fails: 256 is a power of two in the documented domain,
and `PMACC_ROUND_UP_NEXT_POW2(256)` is 128, not 256. -/
theorem round_up_pow2_counterexample :
    IsPow2 256 ∧ (1 : Int) ≤ 256 ∧ PMACC_ROUND_UP_NEXT_POW2 256 = 128 ∧
    PMACC_ROUND_UP_NEXT_POW2 256 ≠ 256 := by
  refine ⟨⟨8, by norm_num⟩, by norm_num, by decide, by decide⟩

/-- C10, amended. For every integral value that is a power of two and at
most 128, `PMACC_ROUND_UP_NEXT_POW2(value)` returns `value` itself. -/
theorem round_up_pow2_fixed (value : Int) (hp : IsPow2 value) (h : value ≤ 128) :
    PMACC_ROUND_UP_NEXT_POW2 value = value := by
  obtain ⟨k, rfl⟩ := hp
  have hk := pow2_cases k
  unfold PMACC_ROUND_UP_NEXT_POW2
  split_ifs <;> omega

/-- Witness for C10 amended: the value 64. -/
theorem round_up_pow2_fixed_witness :
    IsPow2 64 ∧ PMACC_ROUND_UP_NEXT_POW2 64 = 64 :=
  ⟨⟨6, by norm_num⟩, round_up_pow2_fixed 64 ⟨6, by norm_num⟩ (by norm_num)⟩

/-- C11. The result of `PMACC_ROUND_UP_NEXT_POW2` never exceeds 128: for
every integer `value` the result is one of 1, 2, 4, 8, 16, 32, 64, 128, and
for every `value > 64` the result is exactly 128. -/
theorem round_up_capped (value : Int) :
    PMACC_ROUND_UP_NEXT_POW2 value ∈ ([1, 2, 4, 8, 16, 32, 64, 128] : List Int) ∧
    PMACC_ROUND_UP_NEXT_POW2 value ≤ 128 ∧
    (64 < value → PMACC_ROUND_UP_NEXT_POW2 value = 128) := by
  refine ⟨?_, ?_, ?_⟩
  · unfold PMACC_ROUND_UP_NEXT_POW2
    split_ifs <;> simp
  · unfold PMACC_ROUND_UP_NEXT_POW2
    split_ifs <;> norm_num
  · intro h
    unfold PMACC_ROUND_UP_NEXT_POW2
    split_ifs <;> first | rfl | omega

/-- Witness for C11: the value 1000, above the cap. -/
theorem round_up_capped_witness :
    (64 : Int) < 1000 ∧ PMACC_ROUND_UP_NEXT_POW2 1000 = 128 :=
  ⟨by norm_num, (round_up_capped 1000).2.2 (by norm_num)⟩

/-! ## PMACC_COUNT_ARGS and PMACC_HAS_ARGS -/

/-- The quotient of the two `sizeof` values is the length of the array. -/
lemma sizeofArray_div {α : Type} (sizeofType : Nat) (arr : List α) (hpos : 0 < sizeofType) :
    sizeofArray sizeofType arr / sizeofType = arr.length := by
  unfold sizeofArray
  exact Nat.mul_div_cancel _ hpos

/-- The length of an array is below `2 ^ w` when its size in bytes is. -/
lemma length_lt_of_sizeofArray_lt {α : Type} (w sizeofType : Nat) (arr : List α)
    (hpos : 0 < sizeofType) (hfit : sizeofArray sizeofType arr < 2 ^ w) :
    arr.length < 2 ^ w := by
  unfold sizeofArray at hfit
  calc arr.length = arr.length * 1 := (Nat.mul_one _).symm
    _ ≤ arr.length * sizeofType := Nat.mul_le_mul_left _ hpos
    _ < 2 ^ w := hfit

/-- Value of the counting expression. -/
lemma count_args_value {α : Type} [Inhabited α] (w sizeofType : Nat) (args : List α)
    (hpos : 0 < sizeofType)
    (hfit : sizeofArray sizeofType ((default : α) :: args) < 2 ^ w) :
    PMACC_COUNT_ARGS w sizeofType args = args.length := by
  have hlen := length_lt_of_sizeofArray_lt w sizeofType _ hpos hfit
  simp only [List.length_cons] at hlen
  unfold PMACC_COUNT_ARGS
  rw [sizeofArray_div _ _ hpos, List.length_cons]
  have h1 : args.length + 1 + 2 ^ w - 1 = args.length + 2 ^ w := by omega
  rw [h1, Nat.add_mod_right]
  exact Nat.mod_eq_of_lt (by omega)

/-- C12. For every type (of size `sizeofType >= 1`) and every list of `n >= 0`
arguments of that type, the array built from one default element plus the
arguments has `n + 1` elements, `sizeof(array) / sizeof(type)` is at least 1
(so the unsigned subtraction does not wrap), and
`PMACC_COUNT_ARGS(type, a1, ..., an)` evaluates to `n`.  The array is an
object, so its size is a `size_t` value (below `2 ^ w`). -/
theorem count_args_eq_length {α : Type} [Inhabited α] (w sizeofType : Nat) (args : List α)
    (hpos : 0 < sizeofType)
    (hfit : sizeofArray sizeofType ((default : α) :: args) < 2 ^ w) :
    ((default : α) :: args).length = args.length + 1 ∧
    1 ≤ sizeofArray sizeofType ((default : α) :: args) / sizeofType ∧
    PMACC_COUNT_ARGS w sizeofType args = args.length := by
  refine ⟨rfl, ?_, count_args_value w sizeofType args hpos hfit⟩
  rw [sizeofArray_div _ _ hpos, List.length_cons]
  omega

/-- Witness for C12: three arguments of a 4-byte type with a 64-bit
`size_t`, and no argument at all. -/
theorem count_args_eq_length_witness :
    PMACC_COUNT_ARGS 64 4 [(7 : Int), 8, 9] = 3 ∧
    PMACC_COUNT_ARGS 64 4 ([] : List Int) = 0 :=
  ⟨(count_args_eq_length 64 4 [(7 : Int), 8, 9] (by norm_num)
      (by norm_num [sizeofArray])).2.2,
   (count_args_eq_length 64 4 ([] : List Int) (by norm_num)
      (by norm_num [sizeofArray])).2.2⟩

/-- The test of `PMACC_HAS_ARGS` fails exactly on the empty argument list. -/
lemma has_args_false_iff (sizeofInt : Nat) (args : List Int) (hpos : 0 < sizeofInt) :
    PMACC_HAS_ARGS sizeofInt args = false ↔ args = [] := by
  unfold PMACC_HAS_ARGS sizeofArray
  rw [List.length_cons]
  constructor
  · intro h
    by_contra hne
    have hlen : 0 < args.length := List.length_pos.mpr hne
    have hne2 : (args.length + 1) * sizeofInt ≠ sizeofInt := by
      have hprod : 0 < args.length * sizeofInt := Nat.mul_pos hlen hpos
      rw [Nat.add_mul, Nat.one_mul]
      omega
    rw [if_neg hne2] at h
    exact Bool.noConfusion h
  · rintro rfl
    simp

/-- C13. `PMACC_HAS_ARGS(...)` is false if and only if no arguments are
given, and true for every non-empty argument list; and for every list of
arguments converted to `int` it equals `PMACC_COUNT_ARGS(int, args) != 0`. -/
theorem has_args_iff (w sizeofInt : Nat) (args : List Int) (hpos : 0 < sizeofInt)
    (hfit : sizeofArray sizeofInt ((0 : Int) :: args) < 2 ^ w) :
    (PMACC_HAS_ARGS sizeofInt args = false ↔ args = []) ∧
    (args ≠ [] → PMACC_HAS_ARGS sizeofInt args = true) ∧
    PMACC_HAS_ARGS sizeofInt args = (PMACC_COUNT_ARGS w sizeofInt args != 0) := by
  have hiff := has_args_false_iff sizeofInt args hpos
  refine ⟨hiff, fun hne => ?_, ?_⟩
  · cases h : PMACC_HAS_ARGS sizeofInt args
    · exact absurd (hiff.mp h) hne
    · rfl
  · rw [count_args_value w sizeofInt args hpos hfit]
    cases args with
    | nil => exact hiff.mpr rfl
    | cons a rest =>
      cases h : PMACC_HAS_ARGS sizeofInt (a :: rest)
      · exact absurd (hiff.mp h) (by simp)
      · simp

/-- Witness for C13: the arguments 5, 0 and the empty list, with a 4-byte
`int` and a 64-bit `size_t`. -/
theorem has_args_iff_witness :
    PMACC_HAS_ARGS 4 [5, 0] = true ∧
    PMACC_HAS_ARGS 4 [5, 0] = (PMACC_COUNT_ARGS 64 4 ([5, 0] : List Int) != 0) ∧
    PMACC_HAS_ARGS 4 [] = false :=
  ⟨(has_args_iff 64 4 [5, 0] (by norm_num) (by norm_num [sizeofArray])).2.1 (by simp),
   (has_args_iff 64 4 [5, 0] (by norm_num) (by norm_num [sizeofArray])).2.2,
   (has_args_iff 64 4 [] (by norm_num) (by norm_num [sizeofArray])).1.mpr rfl⟩

/-! ## Order of hook and flag write -/

/-- C15. Within `load()` and `unload()` the hook runs first, on the state of
before the call, and the flag write comes last: when the hook returns
normally the state left is the one the hook left with `loaded` overwritten
(`true` for `load()`, `false` for `unload()`).  The hooks of `probeHooks`,
which read `isLoaded()` and then write `loaded` themselves, see the value
from before the call (`false` on a fresh component in `load()`, `true` on a
loaded component in `unload()`), and what they wrote is overwritten. -/
theorem hook_before_flag {σ : Type} (v : Hooks σ) (p : IPlugin σ) :
    ((v.pluginLoad p).1 = .ok () →
      (load v p).2 = { (v.pluginLoad p).2 with loaded := true }) ∧
    ((v.pluginUnload p).1 = .ok () →
      (unload v p).2 = { (v.pluginUnload p).2 with loaded := false }) ∧
    (∀ q : IPlugin (List Bool),
      (load probeHooks q).2.derived = q.derived ++ [q.loaded] ∧
      (load probeHooks q).2.loaded = true ∧
      (unload probeHooks q).2.derived = q.derived ++ [q.loaded] ∧
      (unload probeHooks q).2.loaded = false) ∧
    (load probeHooks (IPlugin.new [])).2.derived = [false] ∧
    (unload probeHooks ⟨true, 0, []⟩).2.derived = [true] := by
  refine ⟨fun h => ?_, fun h => ?_, fun q => ⟨rfl, rfl, rfl, rfl⟩, rfl, rfl⟩
  · rcases load_cases v p with ⟨p1, h1, h2⟩ | ⟨e, p1, h1, -⟩
    · rw [h2, h1]
    · rw [h1] at h; cases h
  · rcases unload_cases v p with ⟨p1, h1, h2⟩ | ⟨e, p1, h1, -⟩
    · rw [h2, h1]
    · rw [h1] at h; cases h

/-- Witness for C15: the class `stuckHooks`, whose `pluginLoad` returns, and
the default hooks for `unload()`. -/
theorem hook_before_flag_witness :
    (load stuckHooks (IPlugin.new ())).2 =
      { (stuckHooks.pluginLoad (IPlugin.new ())).2 with loaded := true } ∧
    (unload (defaultHooks Unit) ⟨true, 3, ()⟩).2 =
      { ((defaultHooks Unit).pluginUnload ⟨true, 3, ()⟩).2 with loaded := false } :=
  ⟨(hook_before_flag stuckHooks (IPlugin.new ())).1 rfl,
   (hook_before_flag (defaultHooks Unit) ⟨true, 3, ()⟩).2.1 rfl⟩

/-! ## Order of the recorded checkpoints -/

/-- C16, the code at the failing input. On a freshly constructed component a
manager that calls `setLastCheckpoint` with the steps 100, 100, 250 (in
order) or 5, 3 (out of order) reads the sentinel 0 before the first call and
nothing after it: the first call flows off the end of the function, so no
later value of `getLastCheckpoint()` exists, neither a non-decreasing one nor
a decreased one.  The same happens for every non-empty sequence of steps. -/
theorem checkpoint_history_ends_at_first :
    checkpointHistory (IPlugin.new ()) [100, 100, 250] = [0] ∧
    checkpointHistory (IPlugin.new ()) [5, 3] = [0] ∧
    setLastCheckpoints (IPlugin.new ()) [5, 3] = .flowsOffEnd ⟨false, 5, ()⟩ ∧
    (∀ (s : Nat) (rest : List Nat),
      checkpointHistory (IPlugin.new ()) (s :: rest) = [0]) :=
  ⟨rfl, rfl, rfl, fun _ _ => rfl⟩

/-! ## Independence of the two members -/

/-- C17, the code at the failing input. On a loaded component with checkpoint
step 7 the call `setLastCheckpoint(9)` flows off the end of the function and
does not return, so no `isLoaded()` follows it (and so from every state, for
every step).  The other parts of the claim hold: with the default hooks
`load()` and `unload()` leave `getLastCheckpoint()` unchanged, and
`isLoaded()` and `getLastCheckpoint()` leave the whole state unchanged. -/
theorem frame_except_setLastCheckpoint {σ : Type} (p : IPlugin σ) (s : Nat) :
    setLastCheckpoint (⟨true, 7, ()⟩ : IPlugin Unit) 9 = .flowsOffEnd ⟨true, 9, ()⟩ ∧
    (∀ (value : Nat) (q : IPlugin σ), setLastCheckpoint p s ≠ .returned value q) ∧
    (getLastCheckpoint (load (defaultHooks σ) p).2).1 = (getLastCheckpoint p).1 ∧
    (getLastCheckpoint (unload (defaultHooks σ) p).2).1 = (getLastCheckpoint p).1 ∧
    (isLoaded p).2 = p ∧
    (getLastCheckpoint p).2 = p :=
  ⟨rfl, fun value q => setLastCheckpoint_ne_returned p s value q, rfl, rfl, rfl, rfl⟩

/-! ## The sentinel and step 0 -/

/-- C18, the code at the failing input. On a freshly constructed component the
call `setLastCheckpoint(0)` flows off the end of the function and does not
return: there is no component "on which `setLastCheckpoint(0)` has been
called" whose status could be queried and compared with the fresh one; the
same for the step 100. -/
theorem step_zero_call_flows_off_end {σ : Type} (d : σ) :
    setLastCheckpoint (IPlugin.new d) 0 = .flowsOffEnd (IPlugin.new d) ∧
    (∀ (value : Nat) (q : IPlugin σ),
      setLastCheckpoint (IPlugin.new d) 0 ≠ .returned value q) ∧
    (∀ (value : Nat) (q : IPlugin σ),
      setLastCheckpoint (IPlugin.new d) 100 ≠ .returned value q) :=
  ⟨rfl, fun value q => setLastCheckpoint_ne_returned _ _ value q,
    fun value q => setLastCheckpoint_ne_returned _ _ value q⟩

/-! ## No guard on the current state -/

/-- The counters after `load()` of an instrumented class. -/
lemma load_counted_counters {σ : Type} (v : Hooks σ) (p : IPlugin (σ × Counters)) :
    (load (counted v) p).2.derived.2 =
      { loads := p.derived.2.loads + 1, unloads := p.derived.2.unloads } := by
  rcases load_cases (counted v) p with ⟨p1, h1, h2⟩ | ⟨e, p1, h1, h2⟩
  · have hp1 : p1 = ((counted v).pluginLoad p).2 := by rw [h1]
    rw [h2, hp1]
    rfl
  · have hp1 : p1 = ((counted v).pluginLoad p).2 := by rw [h1]
    rw [h2, hp1]
    rfl

/-- The counters after `unload()` of an instrumented class. -/
lemma unload_counted_counters {σ : Type} (v : Hooks σ) (p : IPlugin (σ × Counters)) :
    (unload (counted v) p).2.derived.2 =
      { loads := p.derived.2.loads, unloads := p.derived.2.unloads + 1 } := by
  rcases unload_cases (counted v) p with ⟨p1, h1, h2⟩ | ⟨e, p1, h1, h2⟩
  · have hp1 : p1 = ((counted v).pluginUnload p).2 := by rw [h1]
    rw [h2, hp1]
    rfl
  · have hp1 : p1 = ((counted v).pluginUnload p).2 := by rw [h1]
    rw [h2, hp1]
    rfl

/-- C19. `load()` and `unload()` have no guard on the current state: for
every plugin class and every state (loaded or not, fresh or not), a call to
`load()` invokes `pluginLoad` exactly once and `pluginUnload` not at all, and
a call to `unload()` invokes `pluginUnload` exactly once and `pluginLoad` not
at all, as counted by the instrumented class.  With the default hooks both
are idempotent on the state. -/
theorem hooks_run_unguarded {σ : Type} (v : Hooks σ) (p : IPlugin (σ × Counters))
    (q : IPlugin σ) :
    (load (counted v) p).2.derived.2 =
      { loads := p.derived.2.loads + 1, unloads := p.derived.2.unloads } ∧
    (unload (counted v) p).2.derived.2 =
      { loads := p.derived.2.loads, unloads := p.derived.2.unloads + 1 } ∧
    (load (defaultHooks σ) (load (defaultHooks σ) q).2).2 = (load (defaultHooks σ) q).2 ∧
    (unload (defaultHooks σ) (unload (defaultHooks σ) q).2).2 =
      (unload (defaultHooks σ) q).2 :=
  ⟨load_counted_counters v p, unload_counted_counters v p, rfl, rfl⟩

end PMacc
